import Mathlib

/-!
Verification development for the boxlite box-lifecycle engine.

The definitions below are a shallow embedding of the Rust sources under
`src/boxlite/src/`.  File and symbol names are kept close to the source
(`lifecycle.rs`, `manager.rs`, `rt_impl.rs`, `init/…`, `pipeline/…`,
`vmm_spawn.rs`).  External effects (process liveness probes, SQLite,
filesystem, the VMM subprocess) are passed in as explicit environment
values so that every function is executable and deterministic.

A few leaf types (`BoxStatus`, `BoxState`, the store row operations) live
in files that are not part of the source tree (`runtime/types.rs`,
`litebox/state.rs`, `db/boxes.rs`); those definitions are modelled from
the specification and are marked as such in their doc comments.
-/

namespace Boxlite

/-- Box identifier (26-char ULID in the source; any string here). -/
abbrev BoxID := String

/-- Error kinds of `BoxliteError` (boxlite_shared). Message payloads of the
source errors are elided; no claim inspects them. -/
inductive Err
  | notFound
  | invalidArgument
  | invalidState
  | storage
  | database
  | engine
  | unsupported
  | config
  | internal
deriving DecidableEq, Repr

/-- Modelled from the spec: `BoxStatus` lives in `runtime/types.rs` /
`litebox/state.rs`, which are not in the source tree.  The spec data model
lists `Starting | Running | Stopped | Crashed | Removing`. -/
inductive BoxStatus
  | starting
  | running
  | stopped
  | crashed
  | removing
deriving DecidableEq, Repr

/-- Modelled from the spec: `BoxStatus::is_active` — *Active* ⇔
`Starting ∨ Running`. -/
def BoxStatus.is_active : BoxStatus → Bool
  | .starting => true
  | .running => true
  | _ => false

/-- Modelled from the spec: `can_stop` ⇔ *active*. -/
def BoxStatus.can_stop (s : BoxStatus) : Bool :=
  s.is_active

/-- Modelled from the spec: mutable `BoxState` `{status, pid?, container_id?}`
(`updated_at` is omitted; no claim mentions it). -/
structure BoxState where
  status : BoxStatus
  pid : Option Nat
  container_id : Option String
deriving DecidableEq, Repr

/-- Modelled from the spec: `BoxState::new` — a box is born `Starting`. -/
def BoxState.new : BoxState :=
  ⟨.starting, none, none⟩

/-- Modelled from the spec: `BoxState::set_status`. -/
def BoxState.set_status (st : BoxState) (s : BoxStatus) : BoxState :=
  { st with status := s }

/-- Modelled from the spec: `BoxState::set_pid`. -/
def BoxState.set_pid (st : BoxState) (p : Option Nat) : BoxState :=
  { st with pid := p }

/-- Modelled from the spec: `BoxState::mark_crashed`.  The source comment in
`runtime/core.rs` (`state.mark_crashed(); // This sets status to Stopped`)
and scenario S4 of the spec (`row is Stopped, PID cleared`) fix its
behaviour: the status becomes `Stopped` and the PID is cleared. -/
def BoxState.mark_crashed (st : BoxState) : BoxState :=
  { st with status := .stopped, pid := none }

/-! ## Association-list maps

The in-memory registry is a `HashMap` and the store is a keyed SQLite
table; both are modelled as association lists with unique keys. -/

/-- Lookup by key (models `HashMap::get` / a keyed `SELECT`). -/
def findKey {κ α : Type} [DecidableEq κ] : List (κ × α) → κ → Option α
  | [], _ => none
  | (k0, v0) :: rest, k => if k0 = k then some v0 else findKey rest k

/-- Insert or replace at a key (models `HashMap::insert` / upsert). -/
def insertKey {κ α : Type} [DecidableEq κ] : List (κ × α) → κ → α → List (κ × α)
  | [], k, v => [(k, v)]
  | (k0, v0) :: rest, k, v =>
    if k0 = k then (k, v) :: rest else (k0, v0) :: insertKey rest k v

/-- Remove a key (models `HashMap::remove` / `DELETE`). -/
def eraseKey {κ α : Type} [DecidableEq κ] : List (κ × α) → κ → List (κ × α)
  | [], _ => []
  | (k0, v0) :: rest, k => if k0 = k then rest else (k0, v0) :: eraseKey rest k

/-- Update the value at a key if present (models `HashMap::get_mut` /
a single-row `UPDATE`). -/
def updateKey {κ α : Type} [DecidableEq κ] (f : α → α) : List (κ × α) → κ → List (κ × α)
  | [], _ => []
  | (k0, v0) :: rest, k =>
    if k0 = k then (k0, f v0) :: rest else (k0, v0) :: updateKey f rest k

/-- Keys of an association list are pairwise distinct. -/
def nodupKeys {κ α : Type} (l : List (κ × α)) : Prop :=
  (l.map Prod.fst).Nodup

/-! ## Metadata store (`BoxStore`)

`db/boxes.rs` is not in the source tree; the row operations are modelled
from the spec contracts in §4.1 (single-row updates fail if the row is
absent; `save` upserts; `delete` returns NotFound when missing;
`reset_active_after_reboot` flips active rows to Stopped and clears PIDs).
A `dbFail : Bool` argument injects an I/O failure of the underlying
database write; a failed write leaves the store unchanged. -/

/-- The durable table: one state row per `BoxID` (the immutable config blob
carries no lifecycle data and is omitted). -/
abbrev Store := List (BoxID × BoxState)

/-- Modelled from the spec: `BoxStore::save` (upsert). -/
def Store.save (s : Store) (id : BoxID) (row : BoxState) (dbFail : Bool) :
    Except Err Store :=
  if dbFail then .error .database
  else .ok (insertKey s id row)

/-- Modelled from the spec: `BoxStore::update_status` (fail if absent). -/
def Store.update_status (s : Store) (id : BoxID) (st : BoxStatus) (dbFail : Bool) :
    Except Err Store :=
  if dbFail then .error .database
  else match findKey s id with
    | none => .error .notFound
    | some _ => .ok (updateKey (fun r => r.set_status st) s id)

/-- Modelled from the spec: `BoxStore::update_pid` (fail if absent). -/
def Store.update_pid (s : Store) (id : BoxID) (p : Option Nat) (dbFail : Bool) :
    Except Err Store :=
  if dbFail then .error .database
  else match findKey s id with
    | none => .error .notFound
    | some _ => .ok (updateKey (fun r => r.set_pid p) s id)

/-- Modelled from the spec: `BoxStore::update_container_id` (fail if absent). -/
def Store.update_container_id (s : Store) (id : BoxID) (cid : String) (dbFail : Bool) :
    Except Err Store :=
  if dbFail then .error .database
  else match findKey s id with
    | none => .error .notFound
    | some _ => .ok (updateKey (fun r => { r with container_id := some cid }) s id)

/-- Modelled from the spec: `BoxStore::mark_crashed` (single-row update). -/
def Store.mark_crashed (s : Store) (id : BoxID) (dbFail : Bool) :
    Except Err Store :=
  if dbFail then .error .database
  else match findKey s id with
    | none => .error .notFound
    | some _ => .ok (updateKey (fun r => r.mark_crashed) s id)

/-- Modelled from the spec: `BoxStore::delete` (NotFound when missing). -/
def Store.delete (s : Store) (id : BoxID) (dbFail : Bool) :
    Except Err Store :=
  if dbFail then .error .database
  else match findKey s id with
    | none => .error .notFound
    | some _ => .ok (eraseKey s id)

/-- Modelled from the spec: `BoxStore::reset_active_boxes_after_reboot` —
all `Starting|Running` rows become `Stopped` with PIDs cleared. -/
def Store.reset_active_after_reboot (s : Store) : Store :=
  s.map (fun p =>
    if p.2.status.is_active then (p.1, { p.2 with status := .stopped, pid := none })
    else p)

/-! ## Box registry (`litebox/manager.rs`, `BoxManager`)

Each mutation method mirrors the source: check the cache precondition,
write to the store, then mutate the cache.  The methods return the
(possibly mutated) manager alongside the result, so that the state after
an early error return is visible. -/

/-- In-memory cache plus the wrapped store (`BoxManagerInner`).  The cache
entry keeps only `BoxState`; the immutable `BoxConfig` carries no
lifecycle data used by any claim. -/
structure BoxManager where
  cache : List (BoxID × BoxState)
  store : Store
deriving DecidableEq, Repr

/-- `BoxManager::new` — empty cache over the given store. -/
def BoxManager.new (s : Store) : BoxManager :=
  ⟨[], s⟩

/-- `BoxManager::get` (read of the cache). -/
def BoxManager.get (m : BoxManager) (id : BoxID) : Option BoxState :=
  findKey m.cache id

/-- `BoxManager::register` — fail if cached; save to store; then cache. -/
def BoxManager.register (m : BoxManager) (id : BoxID) (state : BoxState)
    (dbFail : Bool) : Except Err Unit × BoxManager :=
  if (findKey m.cache id).isSome then (.error .internal, m)
  else match m.store.save id state dbFail with
    | .error e => (.error e, m)
    | .ok s1 => (.ok ⟨⟩, ⟨insertKey m.cache id state, s1⟩)

/-- `BoxManager::register_recovered` — populate the cache only. -/
def BoxManager.register_recovered (m : BoxManager) (id : BoxID) (state : BoxState) :
    Except Err Unit × BoxManager :=
  if (findKey m.cache id).isSome then (.error .internal, m)
  else (.ok ⟨⟩, ⟨insertKey m.cache id state, m.store⟩)

/-- `BoxManager::update_status` — cache presence check, store write, cache. -/
def BoxManager.update_status (m : BoxManager) (id : BoxID) (st : BoxStatus)
    (dbFail : Bool) : Except Err Unit × BoxManager :=
  if (findKey m.cache id).isNone then (.error .internal, m)
  else match m.store.update_status id st dbFail with
    | .error e => (.error e, m)
    | .ok s1 => (.ok ⟨⟩, ⟨updateKey (fun r => r.set_status st) m.cache id, s1⟩)

/-- `BoxManager::update_pid`. -/
def BoxManager.update_pid (m : BoxManager) (id : BoxID) (p : Option Nat)
    (dbFail : Bool) : Except Err Unit × BoxManager :=
  if (findKey m.cache id).isNone then (.error .internal, m)
  else match m.store.update_pid id p dbFail with
    | .error e => (.error e, m)
    | .ok s1 => (.ok ⟨⟩, ⟨updateKey (fun r => r.set_pid p) m.cache id, s1⟩)

/-- `BoxManager::update_container_id` (the `ContainerId::parse` step of the
source always succeeds here: the id format lives outside the tree and no
claim depends on a malformed id). -/
def BoxManager.update_container_id (m : BoxManager) (id : BoxID) (cid : String)
    (dbFail : Bool) : Except Err Unit × BoxManager :=
  if (findKey m.cache id).isNone then (.error .internal, m)
  else match m.store.update_container_id id cid dbFail with
    | .error e => (.error e, m)
    | .ok s1 =>
      (.ok ⟨⟩, ⟨updateKey (fun r => { r with container_id := some cid }) m.cache id, s1⟩)

/-- `BoxManager::mark_crashed` — store first, then cache entry if present. -/
def BoxManager.mark_crashed (m : BoxManager) (id : BoxID) (dbFail : Bool) :
    Except Err Unit × BoxManager :=
  match m.store.mark_crashed id dbFail with
  | .error e => (.error e, m)
  | .ok s1 => (.ok ⟨⟩, ⟨updateKey (fun r => r.mark_crashed) m.cache id, s1⟩)

/-- `BoxManager::remove` — fail on an active cached entry; delete the store
row; then drop the cache entry. -/
def BoxManager.remove (m : BoxManager) (id : BoxID) (dbFail : Bool) :
    Except Err Unit × BoxManager :=
  match findKey m.cache id with
  | none => (.error .internal, m)
  | some entry =>
    if entry.status.is_active then (.error .internal, m)
    else match m.store.delete id dbFail with
      | .error e => (.error e, m)
      | .ok s1 => (.ok ⟨⟩, ⟨eraseKey m.cache id, s1⟩)

/-! ## Process environment (`util/process.rs`) -/

/-- Host process table, abstracted: `is_process_alive` (null signal) and
`is_same_process` (cmdline holds the VMM binary name and the BoxID). -/
structure ProcEnv where
  alive : Nat → Bool
  same : Nat → BoxID → Bool

/-! ## Startup recovery (`runtime/rt_impl.rs::recover_boxes`) -/

/-- The per-row reconciliation of `recover_boxes` applied to the in-memory
copy of a persisted state (the body of the `for` loop before
`register_recovered`). -/
def reconcile_state (env : ProcEnv) (id : BoxID) (st : BoxState) : BoxState :=
  match st.pid with
  | some pid =>
    if env.alive pid && env.same pid id then st
    else if st.status.is_active then st.mark_crashed
    else st
  | none =>
    if st.status = .running || st.status = .starting then st.set_status .stopped
    else st

/-- Register every reconciled row into the cache (`register_recovered`),
propagating its error as the source `?` does. -/
def register_all (env : ProcEnv) : List (BoxID × BoxState) → BoxManager →
    Except Err BoxManager
  | [], m => .ok m
  | (id, st) :: rest, m =>
    match m.register_recovered id (reconcile_state env id st) with
    | (.error e, _) => .error e
    | (.ok _, m1) => register_all env rest m1

/-- `RuntimeInnerImpl::recover_boxes`: handle a detected reboot, list the
persisted rows, reconcile each against the process table, and populate the
cache.  Nothing in this function writes a reconciled state back to the
store. -/
def recover_boxes (env : ProcEnv) (reboot : Bool) (store0 : Store) :
    Except Err BoxManager :=
  let store1 := if reboot then store0.reset_active_after_reboot else store0
  register_all env store1 (BoxManager.new store1)

/-! ## Handle lifecycle (`litebox/lifecycle.rs`) -/

/-- The live value produced by a successful init or reattach (`BoxInner`),
reduced to the data the lifecycle claims inspect. -/
structure Live where
  pid : Nat
  container_id : String
deriving DecidableEq, Repr

/-- The `LiteBox` handle fields relevant to the lifecycle:
`is_shutdown` flag, whether `inner` is populated, and `auto_remove`. -/
structure Handle where
  id : BoxID
  is_shutdown : Bool
  has_inner : Bool
  auto_remove : Bool
deriving DecidableEq, Repr

/-- Effects of the host outside the registry during stop/remove:
the VMM handler stop outcome, database write outcome, and the box
subtree state. -/
structure HostEnv where
  handlerStopOk : Bool
  dbFail : Bool
  subtreeExists : Bool
  subtreeDeleteOk : Bool
deriving DecidableEq, Repr

/-- Observable side-effect trace of `remove_box`. -/
inductive Action
  | sigkill (pid : Nat)
  | storeDelete
  | subtreeDelete
deriving DecidableEq, Repr

/-- `RuntimeInnerImpl::remove_box` (`runtime/rt_impl.rs`): guard on active
status unless forced; force SIGKILLs the recorded PID and flips the box to
`Stopped` with the PID cleared; then the manager removes the row
(store first); finally the box subtree is deleted best-effort — a deletion
failure is logged, never returned. -/
def remove_box (m : BoxManager) (id : BoxID) (force : Bool) (env : HostEnv) :
    Except Err Unit × BoxManager × List Action :=
  match m.get id with
  | none => (.error .notFound, m, [])
  | some state =>
    let killTrace := if state.status.is_active && force then
        (match state.pid with | some pid => [Action.sigkill pid] | none => [])
      else []
    if state.status.is_active && !force then (.error .invalidState, m, killTrace)
    else
      let afterStop : Except Err BoxManager :=
        if state.status.is_active then
          match m.update_status id .stopped env.dbFail with
          | (.error e, _) => .error e
          | (.ok _, m1) =>
            match m1.update_pid id none env.dbFail with
            | (.error e, _) => .error e
            | (.ok _, m2) => .ok m2
        else .ok m
      match afterStop with
      | .error e => (.error e, m, killTrace)
      | .ok m2 =>
        match m2.remove id env.dbFail with
        | (.error e, m3) => (.error e, m3, killTrace)
        | (.ok _, m3) =>
          let tr := killTrace ++ [Action.storeDelete] ++
            (if env.subtreeExists then [Action.subtreeDelete] else [])
          (.ok ⟨⟩, m3, tr)

/-- `lifecycle.rs::stop`: set `is_shutdown` first, validate `can_stop`
against the registry, best-effort guest shutdown, stop the handler,
persist `Stopped` and clear the PID, clear `inner`, then auto-remove if
configured. -/
def stop (h : Handle) (m : BoxManager) (env : HostEnv) :
    Except Err Unit × Handle × BoxManager :=
  let h1 := { h with is_shutdown := true }
  match m.get h1.id with
  | none => (.error .notFound, h1, m)
  | some state =>
    if !state.status.can_stop then (.error .invalidState, h1, m)
    else if h1.has_inner && !env.handlerStopOk then (.error .engine, h1, m)
    else
      match m.update_status h1.id .stopped env.dbFail with
      | (.error e, m1) => (.error e, h1, m1)
      | (.ok _, m1) =>
        match m1.update_pid h1.id none env.dbFail with
        | (.error e, m2) => (.error e, h1, m2)
        | (.ok _, m2) =>
          let h2 := { h1 with has_inner := false }
          if h2.auto_remove then
            match remove_box m2 h2.id false env with
            | (.error e, m3, _) => (.error e, h2, m3)
            | (.ok _, m3, _) => (.ok ⟨⟩, h2, m3)
          else (.ok ⟨⟩, h2, m2)

/-- `lifecycle.rs::drop_handler`, as the predicate ``the drop panics``:
it panics exactly when `is_shutdown` is unset and the registry still shows
the box active. -/
def drop_panics (h : Handle) (m : BoxManager) : Bool :=
  if h.is_shutdown then false
  else match m.get h.id with
    | some state => state.status.is_active
    | none => false

/-- `lifecycle.rs::reattach_to_running`: require a PID, probe liveness only
(`is_process_alive`); a dead process marks the box crashed (error ignored)
and fails; otherwise `BoxInner::reconnect` requires a `container_id` and
attaches to the PID without spawning. -/
def reattach_to_running (env : ProcEnv) (m : BoxManager) (id : BoxID)
    (state : BoxState) : Except Err Live × BoxManager :=
  match state.pid with
  | none => (.error .invalidState, m)
  | some pid =>
    if !env.alive pid then
      (.error .invalidState, (m.mark_crashed id false).2)
    else
      match state.container_id with
      | none => (.error .invalidState, m)
      | some cid => (.ok ⟨pid, cid⟩, m)

/-- `lifecycle.rs::ensure_ready` (slow path): read the registry and
dispatch on the status — `Starting|Stopped` drive the builder, `Running`
reattaches, anything else is `InvalidState`.  The builder outcome is an
input (`BoxBuilder::build` is modelled separately). -/
def ensure_ready (env : ProcEnv) (m : BoxManager) (id : BoxID)
    (builderResult : Except Err Live) : Except Err Live × BoxManager :=
  match m.get id with
  | none => (.error .notFound, m)
  | some state =>
    match state.status with
    | .starting => (builderResult, m)
    | .stopped => (builderResult, m)
    | .running => reattach_to_running env m id state
    | _ => (.error .invalidState, m)

/-! ## Pipeline executor (`pipeline/pipeline.rs`, `pipeline/stage.rs`) -/

/-- Execution mode of a stage. -/
inductive ExecutionMode
  | parallel
  | sequential
deriving DecidableEq, Repr

/-- A pipeline task, reduced to its name and its run outcome (the run
outcome is an input: tasks are external to the executor). -/
structure MTask where
  name : String
  ok : Bool
deriving DecidableEq, Repr

/-- A stage: tasks plus execution mode. -/
structure MStage where
  tasks : List MTask
  mode : ExecutionMode
deriving DecidableEq, Repr

/-- Sequential stage body of `PipelineExecutor::execute`: run tasks one by
one, aborting on the first failure.  Returns the names of the tasks that
ran, in order, and the stage outcome. -/
def runStageSeq : List MTask → List String × Bool
  | [] => ([], true)
  | t :: ts =>
    if t.ok then
      let (ns, b) := runStageSeq ts
      (t.name :: ns, b)
    else ([t.name], false)

/-- Parallel stage body: `try_join_all` starts every task of the stage and
the stage fails when any task fails. -/
def runStagePar (ts : List MTask) : List String × Bool :=
  (ts.map (fun t => t.name), ts.all (fun t => t.ok))

/-- `PipelineExecutor::execute`: stages run strictly in order; a failed
stage short-circuits the pipeline (`?` on the stage result), so no task of
a later stage runs. -/
def execute : List MStage → List String × Bool
  | [] => ([], true)
  | s :: rest =>
    let (ns, ok) := match s.mode with
      | .parallel => runStagePar s.tasks
      | .sequential => runStageSeq s.tasks
    if ok then
      let (ns2, ok2) := execute rest
      (ns ++ ns2, ok2)
    else (ns, false)

/-- Per-task success assignment for the six init tasks. -/
structure InitOutcomes where
  fsOk : Bool
  crOk : Bool
  grOk : Bool
  spawnOk : Bool
  connectOk : Bool
  initOk : Bool
deriving DecidableEq, Repr

/-- `litebox/init/mod.rs::get_execution_plan`, fresh (`Starting`) and
restart (`Stopped`) shape: sequential `filesystem_setup`, parallel rootfs
pair, then sequential `vmm_spawn`, `guest_connect`, `guest_init`.
`Running` maps to `vmm_attach` then `guest_connect`.  (The source panics
on any other status; those statuses never reach the builder.) -/
def get_execution_plan (status : BoxStatus) (o : InitOutcomes) : List MStage :=
  match status with
  | .starting | .stopped =>
    [ ⟨[⟨"filesystem_setup", o.fsOk⟩], .sequential⟩,
      ⟨[⟨"container_rootfs_prep", o.crOk⟩, ⟨"guest_rootfs_init", o.grOk⟩], .parallel⟩,
      ⟨[⟨"vmm_spawn", o.spawnOk⟩], .sequential⟩,
      ⟨[⟨"guest_connect", o.connectOk⟩], .sequential⟩,
      ⟨[⟨"guest_init", o.initOk⟩], .sequential⟩ ]
  | .running =>
    [ ⟨[⟨"vmm_attach", o.spawnOk⟩], .sequential⟩,
      ⟨[⟨"guest_connect", o.connectOk⟩], .sequential⟩ ]
  | _ => []

/-! ## Cleanup guard and builder (`litebox/init/types.rs`, `init/mod.rs`) -/

/-- `CleanupGuard` data: armed flag plus which artifacts were registered. -/
structure CleanupGuard where
  armed : Bool
  hasLayout : Bool
  hasHandler : Bool
deriving DecidableEq, Repr

/-- `CleanupGuard::new` — armed, nothing registered yet. -/
def CleanupGuard.new : CleanupGuard :=
  ⟨true, false, false⟩

/-- Result of `CleanupGuard`s drop: updated registry, `boxes_failed`
increment, and whether the handler was stopped / the layout cleaned. -/
structure GuardDropResult where
  mgr : BoxManager
  boxesFailedDelta : Nat
  handlerStopped : Bool
  layoutCleaned : Bool
deriving DecidableEq, Repr

/-- `impl Drop for CleanupGuard`: when armed, stop the handler if set,
clean the layout if set, mark the box crashed and remove it from the
manager (errors logged, never propagated), and bump `boxes_failed`. -/
def CleanupGuard.dropRun (g : CleanupGuard) (m : BoxManager) (id : BoxID) :
    GuardDropResult :=
  if !g.armed then ⟨m, 0, false, false⟩
  else
    let m1 := (m.mark_crashed id false).2
    let m2 := (m1.remove id false).2
    ⟨m2, 1, g.hasHandler, g.hasLayout⟩

/-- Outcome of `BoxBuilder::build`. -/
structure BuildResult where
  ok : Bool
  mgr : BoxManager
  boxesFailedDelta : Nat
  handlerStopped : Bool
  layoutCleaned : Bool
deriving DecidableEq, Repr

/-- Task effects of the fresh/restart pipeline threaded in stage order:
`filesystem_setup` registers the layout on the guard; the parallel rootfs
stage produces only context outputs; `vmm_spawn` persists the new PID and
`Running` status with `let _ =` (errors discarded) and registers the
handler on the guard.  Returns the guard, the registry, and the pipeline
outcome. -/
def run_init_pipeline (o : InitOutcomes) (g : CleanupGuard) (m : BoxManager)
    (id : BoxID) (pid : Nat) : CleanupGuard × BoxManager × Bool :=
  if !o.fsOk then (g, m, false)
  else
    let g := { g with hasLayout := true }
    if !(o.crOk && o.grOk) then (g, m, false)
    else if !o.spawnOk then (g, m, false)
    else
      let m := (m.update_pid id (some pid) false).2
      let m := (m.update_status id .running false).2
      let g := { g with hasHandler := true }
      if !o.connectOk then (g, m, false)
      else if !o.initOk then (g, m, false)
      else (g, m, true)

/-- `BoxBuilder::build`: the guard starts armed and is disarmed up front
whenever the status is not `Starting`; the pipeline runs; on failure the
context (and with it the guard) is dropped; on success the handler is
taken, the guard disarmed, and the container id persisted (error
discarded). -/
def build (status : BoxStatus) (o : InitOutcomes) (m : BoxManager)
    (id : BoxID) (pid : Nat) (cid : String) : BuildResult :=
  let g0 := CleanupGuard.new
  let g1 := if status != .starting then { g0 with armed := false } else g0
  let (g2, m1, pipeOk) := run_init_pipeline o g1 m id pid
  if pipeOk then
    let m2 := (m1.update_container_id id cid false).2
    ⟨true, m2, 0, false, false⟩
  else
    let r := g2.dropRun m1 id
    ⟨false, r.mgr, r.boxesFailedDelta, r.handlerStopped, r.layoutCleaned⟩

/-! ## Port map composition (`init/tasks/vmm_spawn.rs::build_network_config`) -/

/-- One entry of `options.ports`: optional host port and a guest port
(`host_port.unwrap_or(guest_port)` supplies the default). -/
structure PortSpec where
  host_port : Option Nat
  guest_port : Nat
deriving DecidableEq, Repr

/-- The host key a user mapping is inserted under. -/
def PortSpec.hostOf (sp : PortSpec) : Nat :=
  sp.host_port.getD sp.guest_port

/-- `build_network_config` steps 1–3: collect the user guest ports; give
each image-exposed TCP port a 1:1 entry unless the user named that guest
port; then insert every user mapping keyed by its host port (replacing any
existing entry with that host key).  The result is the `(host, guest)`
pair list of the final map; the source `HashMap` iteration order is
immaterial, the association list keeps insertion order. -/
def build_network_config (tcpPorts : List Nat) (ports : List PortSpec) :
    List (Nat × Nat) :=
  let userGuest := ports.map (fun p => p.guest_port)
  let step2 := tcpPorts.foldl
    (fun acc p => if p ∈ userGuest then acc else insertKey acc p p) []
  ports.foldl (fun acc sp => insertKey acc sp.hostOf sp.guest_port) step2

/-! ## `vmm_spawn` persistence fragment (`init/tasks/vmm_spawn.rs`) -/

/-- The tail of `VmmSpawnTask::run` after a successful spawn: persist the
PID and the `Running` status with `let _ = …` (both results discarded),
then register the handler; the task itself returns success. -/
def vmm_spawn_persist (m : BoxManager) (id : BoxID) (pid : Nat) (dbFail : Bool) :
    BoxManager :=
  let m1 := (m.update_pid id (some pid) dbFail).2
  (m1.update_status id .running dbFail).2

/-- `VmmSpawnTask::run`, reduced to spawn outcome plus the persistence
fragment: a spawn failure fails the task; after a successful spawn the
task always succeeds and the handler is set. -/
def vmm_spawn_task_run (spawnOk : Bool) (m : BoxManager) (id : BoxID)
    (pid : Nat) (dbFail : Bool) : Except Err Unit × BoxManager × Bool :=
  if !spawnOk then (.error .engine, m, false)
  else (.ok ⟨⟩, vmm_spawn_persist m id pid dbFail, true)

/-- The value the last user mapping with host key `k` carries (the
`HashMap::insert` last-write-wins view of the user pass of
`build_network_config`). -/
def lastVal : List PortSpec → Nat → Option Nat
  | [], _ => none
  | sp :: rest, k =>
    match lastVal rest k with
    | some g => some g
    | none => if sp.hostOf = k then some sp.guest_port else none

/-! ## Association-list lemmas -/

theorem findKey_of_not_mem_keys {κ α : Type} [DecidableEq κ]
    {l : List (κ × α)} {k : κ} (h : k ∉ l.map Prod.fst) :
    findKey l k = none := by
  induction l with
  | nil => rfl
  | cons hd tl ih =>
    simp only [List.map_cons, List.mem_cons, not_or] at h
    simp only [findKey]
    rw [if_neg (fun he => h.1 he.symm), ih h.2]

theorem findKey_insertKey_self {κ α : Type} [DecidableEq κ]
    (l : List (κ × α)) (k : κ) (v : α) :
    findKey (insertKey l k v) k = some v := by
  induction l with
  | nil => simp [insertKey, findKey]
  | cons hd tl ih =>
    by_cases h : hd.1 = k
    · simp [insertKey, findKey, h]
    · simp [insertKey, findKey, h, ih]

theorem findKey_insertKey_ne {κ α : Type} [DecidableEq κ]
    (l : List (κ × α)) (k k1 : κ) (v : α) (h : k1 ≠ k) :
    findKey (insertKey l k v) k1 = findKey l k1 := by
  have hne : ¬(k = k1) := fun he => h he.symm
  induction l with
  | nil =>
    simp only [insertKey, findKey]
    rw [if_neg hne]
  | cons hd tl ih =>
    by_cases h0 : hd.1 = k
    · simp only [insertKey, if_pos h0, findKey, h0]
      rw [if_neg hne, if_neg hne]
    · simp only [insertKey, if_neg h0, findKey]
      by_cases h1 : hd.1 = k1
      · simp [h1]
      · simp [h1, ih]

theorem map_fst_updateKey {κ α : Type} [DecidableEq κ]
    (f : α → α) (l : List (κ × α)) (k : κ) :
    (updateKey f l k).map Prod.fst = l.map Prod.fst := by
  induction l with
  | nil => rfl
  | cons hd tl ih =>
    by_cases h : hd.1 = k
    · simp [updateKey, h]
    · simp [updateKey, h, ih]

theorem findKey_updateKey_self {κ α : Type} [DecidableEq κ]
    (f : α → α) (l : List (κ × α)) (k : κ) :
    findKey (updateKey f l k) k = (findKey l k).map f := by
  induction l with
  | nil => rfl
  | cons hd tl ih =>
    by_cases h : hd.1 = k
    · simp [updateKey, findKey, h]
    · simp [updateKey, findKey, h, ih]

theorem findKey_updateKey_ne {κ α : Type} [DecidableEq κ]
    (f : α → α) (l : List (κ × α)) (k k1 : κ) (h : k1 ≠ k) :
    findKey (updateKey f l k) k1 = findKey l k1 := by
  induction l with
  | nil => rfl
  | cons hd tl ih =>
    by_cases h0 : hd.1 = k
    · subst h0
      simp only [updateKey, if_pos rfl, findKey]
      rw [if_neg (fun he => h he.symm), if_neg (fun he => h he.symm)]
    · simp only [updateKey, if_neg h0, findKey]
      by_cases h1 : hd.1 = k1
      · simp [h1]
      · simp [h1, ih]

theorem nodupKeys_updateKey {κ α : Type} [DecidableEq κ]
    {f : α → α} {l : List (κ × α)} {k : κ} (h : nodupKeys l) :
    nodupKeys (updateKey f l k) := by
  unfold nodupKeys
  rw [map_fst_updateKey]
  exact h

theorem findKey_eraseKey_self {κ α : Type} [DecidableEq κ]
    {l : List (κ × α)} {k : κ} (h : nodupKeys l) :
    findKey (eraseKey l k) k = none := by
  induction l with
  | nil => rfl
  | cons hd tl ih =>
    unfold nodupKeys at h
    simp only [List.map_cons, List.nodup_cons] at h
    by_cases h0 : hd.1 = k
    · simp only [eraseKey, if_pos h0]
      exact findKey_of_not_mem_keys (h0 ▸ h.1)
    · simp only [eraseKey, if_neg h0, findKey]
      exact ih h.2

theorem mem_keys_insertKey {κ α : Type} [DecidableEq κ]
    (l : List (κ × α)) (k a : κ) (v : α) :
    a ∈ (insertKey l k v).map Prod.fst ↔ a = k ∨ a ∈ l.map Prod.fst := by
  induction l with
  | nil => simp [insertKey]
  | cons hd tl ih =>
    by_cases h : hd.1 = k
    · subst h
      have hrw : insertKey (hd :: tl) hd.1 v = (hd.1, v) :: tl := by
        cases hd
        simp [insertKey]
      rw [hrw]
      simp only [List.map_cons, List.mem_cons]
      tauto
    · simp only [insertKey, if_neg h, List.map_cons, List.mem_cons, ih]
      tauto

theorem nodupKeys_insertKey {κ α : Type} [DecidableEq κ]
    {l : List (κ × α)} {k : κ} {v : α} (h : nodupKeys l) :
    nodupKeys (insertKey l k v) := by
  induction l with
  | nil => simp [insertKey, nodupKeys]
  | cons hd tl ih =>
    unfold nodupKeys at h ⊢
    simp only [List.map_cons, List.nodup_cons] at h
    by_cases h0 : hd.1 = k
    · subst h0
      simpa [insertKey, List.nodup_cons] using h
    · have htl := ih h.2
      unfold nodupKeys at htl
      simp only [insertKey, if_neg h0, List.map_cons, List.nodup_cons]
      refine ⟨fun hmem => ?_, htl⟩
      rcases (mem_keys_insertKey tl k hd.1 v).1 hmem with he | hm
      · exact h0 he
      · exact h.1 hm

theorem mem_iff_findKey {κ α : Type} [DecidableEq κ]
    {l : List (κ × α)} (h : nodupKeys l) (k : κ) (v : α) :
    (k, v) ∈ l ↔ findKey l k = some v := by
  induction l with
  | nil => simp [findKey]
  | cons hd tl ih =>
    unfold nodupKeys at h
    simp only [List.map_cons, List.nodup_cons] at h
    constructor
    · intro hm
      rcases List.mem_cons.1 hm with he | hm2
      · rw [← he]
        simp [findKey]
      · have hmem : k ∈ tl.map Prod.fst := List.mem_map.2 ⟨(k, v), hm2, rfl⟩
        have hne : hd.1 ≠ k := fun he => h.1 (he ▸ hmem)
        simp only [findKey, if_neg hne]
        exact (ih h.2).1 hm2
    · intro hf
      simp only [findKey] at hf
      by_cases h0 : hd.1 = k
      · rw [if_pos h0] at hf
        have hv : hd.2 = v := by
          cases hf
          rfl
        have hhd : (k, v) = hd := by
          cases hd
          simp_all
        rw [hhd]
        exact List.mem_cons_self _ _
      · rw [if_neg h0] at hf
        exact List.mem_cons.2 (Or.inr ((ih h.2).2 hf))

/-! ## Registry step lemmas -/

theorem update_status_ok (m : BoxManager) (id : BoxID) (s : BoxStatus)
    {st row : BoxState} (hc : findKey m.cache id = some st)
    (hs : findKey m.store id = some row) :
    m.update_status id s false =
      (.ok ⟨⟩, ⟨updateKey (fun r => r.set_status s) m.cache id,
        updateKey (fun r => r.set_status s) m.store id⟩) := by
  simp [BoxManager.update_status, Store.update_status, hc, hs]

theorem update_pid_ok (m : BoxManager) (id : BoxID) (p : Option Nat)
    {st row : BoxState} (hc : findKey m.cache id = some st)
    (hs : findKey m.store id = some row) :
    m.update_pid id p false =
      (.ok ⟨⟩, ⟨updateKey (fun r => r.set_pid p) m.cache id,
        updateKey (fun r => r.set_pid p) m.store id⟩) := by
  simp [BoxManager.update_pid, Store.update_pid, hc, hs]

theorem mark_crashed_ok (m : BoxManager) (id : BoxID)
    {row : BoxState} (hs : findKey m.store id = some row) :
    m.mark_crashed id false =
      (.ok ⟨⟩, ⟨updateKey (fun r => r.mark_crashed) m.cache id,
        updateKey (fun r => r.mark_crashed) m.store id⟩) := by
  simp [BoxManager.mark_crashed, Store.mark_crashed, hs]

theorem remove_ok (m : BoxManager) (id : BoxID)
    {st row : BoxState} (hc : findKey m.cache id = some st)
    (hactive : st.status.is_active = false)
    (hs : findKey m.store id = some row) :
    m.remove id false = (.ok ⟨⟩, ⟨eraseKey m.cache id, eraseKey m.store id⟩) := by
  simp [BoxManager.remove, Store.delete, hc, hs, hactive]

/-- Marking crashed and then removing a box that is present (in cache and
store, with unique keys) leaves no trace of it in either. -/
theorem mark_crashed_then_remove (m : BoxManager) (id : BoxID)
    {st row : BoxState} (hc : findKey m.cache id = some st)
    (hs : findKey m.store id = some row)
    (hnc : nodupKeys m.cache) (hns : nodupKeys m.store) :
    findKey ((((m.mark_crashed id false).2).remove id false).2).cache id = none ∧
    findKey ((((m.mark_crashed id false).2).remove id false).2).store id = none := by
  rw [mark_crashed_ok m id hs]
  have hc1 : findKey (updateKey (fun r => r.mark_crashed) m.cache id) id =
      some st.mark_crashed := by
    rw [findKey_updateKey_self, hc]
    rfl
  have hs1 : findKey (updateKey (fun r => r.mark_crashed) m.store id) id =
      some row.mark_crashed := by
    rw [findKey_updateKey_self, hs]
    rfl
  have hact : st.mark_crashed.status.is_active = false := rfl
  rw [remove_ok ⟨updateKey (fun r => r.mark_crashed) m.cache id,
      updateKey (fun r => r.mark_crashed) m.store id⟩ id hc1 hact hs1]
  constructor
  · exact findKey_eraseKey_self (nodupKeys_updateKey hnc)
  · exact findKey_eraseKey_self (nodupKeys_updateKey hns)

/-! ## Port-map characterization lemmas -/

theorem findKey_user_fold (ports : List PortSpec) (acc : List (Nat × Nat)) (k : Nat) :
    findKey (ports.foldl (fun a sp => insertKey a sp.hostOf sp.guest_port) acc) k =
      match lastVal ports k with
      | some g => some g
      | none => findKey acc k := by
  induction ports generalizing acc with
  | nil => rfl
  | cons sp rest ih =>
    simp only [List.foldl_cons, lastVal]
    rw [ih]
    cases hlv : lastVal rest k with
    | some g => rfl
    | none =>
      by_cases hk : sp.hostOf = k
      · subst hk
        simp [findKey_insertKey_self]
      · rw [findKey_insertKey_ne _ _ _ _ (fun he => hk he.symm)]
        simp [hk]

theorem findKey_image_fold (tcp : List Nat) (ug : List Nat)
    (acc : List (Nat × Nat)) (k : Nat) :
    findKey (tcp.foldl (fun a p => if p ∈ ug then a else insertKey a p p) acc) k =
      if k ∈ tcp ∧ k ∉ ug then some k else findKey acc k := by
  induction tcp generalizing acc with
  | nil => simp
  | cons p rest ih =>
    simp only [List.foldl_cons]
    rw [ih]
    by_cases hpug : p ∈ ug
    · rw [if_pos hpug]
      by_cases hk : k ∈ rest ∧ k ∉ ug
      · rw [if_pos hk, if_pos ⟨List.mem_cons.2 (Or.inr hk.1), hk.2⟩]
      · rw [if_neg hk]
        by_cases hk2 : k ∈ p :: rest ∧ k ∉ ug
        · rcases List.mem_cons.1 hk2.1 with he | hm
          · exact absurd (he ▸ hpug) hk2.2
          · exact absurd ⟨hm, hk2.2⟩ hk
        · rw [if_neg hk2]
    · rw [if_neg hpug]
      by_cases hk : k ∈ rest ∧ k ∉ ug
      · rw [if_pos hk, if_pos ⟨List.mem_cons.2 (Or.inr hk.1), hk.2⟩]
      · rw [if_neg hk]
        by_cases hkp : k = p
        · subst hkp
          rw [findKey_insertKey_self, if_pos ⟨List.mem_cons.2 (Or.inl rfl), hpug⟩]
        · rw [findKey_insertKey_ne _ _ _ _ hkp]
          by_cases hk2 : k ∈ p :: rest ∧ k ∉ ug
          · rcases List.mem_cons.1 hk2.1 with he | hm
            · exact absurd he hkp
            · exact absurd ⟨hm, hk2.2⟩ hk
          · rw [if_neg hk2]

/-- Lookup in the final port map: a user mapping for host key `k` wins
(last write); otherwise a surviving 1:1 image entry. -/
theorem findKey_build_network_config (tcp : List Nat) (ports : List PortSpec) (k : Nat) :
    findKey (build_network_config tcp ports) k =
      match lastVal ports k with
      | some g => some g
      | none =>
        if k ∈ tcp ∧ k ∉ ports.map (fun p => p.guest_port) then some k else none := by
  unfold build_network_config
  rw [findKey_user_fold]
  cases lastVal ports k with
  | some g => rfl
  | none =>
    simp only
    rw [findKey_image_fold]
    by_cases hk : k ∈ tcp ∧ k ∉ ports.map (fun p => p.guest_port)
    · rw [if_pos hk, if_pos hk]
    · rw [if_neg hk, if_neg hk]
      rfl

theorem nodupKeys_image_fold (tcp : List Nat) (ug : List Nat)
    (acc : List (Nat × Nat)) (h : nodupKeys acc) :
    nodupKeys (tcp.foldl (fun a p => if p ∈ ug then a else insertKey a p p) acc) := by
  induction tcp generalizing acc with
  | nil => exact h
  | cons p rest ih =>
    simp only [List.foldl_cons]
    by_cases hpug : p ∈ ug
    · rw [if_pos hpug]
      exact ih acc h
    · rw [if_neg hpug]
      exact ih _ (nodupKeys_insertKey h)

theorem nodupKeys_user_fold (ports : List PortSpec)
    (acc : List (Nat × Nat)) (h : nodupKeys acc) :
    nodupKeys (ports.foldl (fun a sp => insertKey a sp.hostOf sp.guest_port) acc) := by
  induction ports generalizing acc with
  | nil => exact h
  | cons sp rest ih =>
    simp only [List.foldl_cons]
    exact ih _ (nodupKeys_insertKey h)

theorem nodupKeys_build_network_config (tcp : List Nat) (ports : List PortSpec) :
    nodupKeys (build_network_config tcp ports) := by
  unfold build_network_config
  exact nodupKeys_user_fold _ _
    (nodupKeys_image_fold _ _ _ (by simp [nodupKeys]))

theorem lastVal_mem (ports : List PortSpec) (k g : Nat)
    (h : lastVal ports k = some g) :
    ∃ sp ∈ ports, sp.hostOf = k ∧ sp.guest_port = g := by
  induction ports with
  | nil => cases h
  | cons sp rest ih =>
    simp only [lastVal] at h
    cases hlv : lastVal rest k with
    | some g0 =>
      rw [hlv] at h
      cases h
      obtain ⟨sp2, hm, he⟩ := ih hlv
      exact ⟨sp2, List.mem_cons.2 (Or.inr hm), he⟩
    | none =>
      rw [hlv] at h
      by_cases hk : sp.hostOf = k
      · rw [if_pos hk] at h
        cases h
        exact ⟨sp, List.mem_cons.2 (Or.inl rfl), hk, rfl⟩
      · rw [if_neg hk] at h
        cases h

theorem lastVal_of_not_mem (ports : List PortSpec) (k : Nat)
    (h : k ∉ ports.map PortSpec.hostOf) :
    lastVal ports k = none := by
  induction ports with
  | nil => rfl
  | cons sp rest ih =>
    simp only [List.map_cons, List.mem_cons, not_or] at h
    simp only [lastVal]
    rw [ih h.2, if_neg (fun he => h.1 he.symm)]

theorem lastVal_self (ports : List PortSpec) (sp : PortSpec)
    (hnodup : (ports.map PortSpec.hostOf).Nodup) (hmem : sp ∈ ports) :
    lastVal ports sp.hostOf = some sp.guest_port := by
  induction ports with
  | nil => cases hmem
  | cons sp0 rest ih =>
    simp only [List.map_cons, List.nodup_cons] at hnodup
    rcases List.mem_cons.1 hmem with he | hm
    · subst he
      have hnone : lastVal rest sp.hostOf = none := by
        cases hlv : lastVal rest sp.hostOf with
        | none => rfl
        | some g =>
          obtain ⟨sp2, hm2, hh, _⟩ := lastVal_mem rest sp.hostOf g hlv
          exact absurd (List.mem_map.2 ⟨sp2, hm2, hh⟩) hnodup.1
      simp [lastVal, hnone]
    · simp only [lastVal]
      rw [ih hnodup.2 hm]

/-- A list with pairwise-distinct keys whose matching entries all equal a
single present pair has exactly one matching entry. -/
theorem filter_length_one {l : List (Nat × Nat)} {P : Nat × Nat → Bool}
    {e : Nat × Nat} (hnodup : nodupKeys l) (hall : ∀ x ∈ l.filter P, x = e)
    (hmem : e ∈ l) (hP : P e = true) :
    (l.filter P).length = 1 := by
  have hrep : l.filter P = List.replicate (l.filter P).length e :=
    List.eq_replicate_of_mem hall
  have hsub : (l.filter P).Sublist l := List.filter_sublist l
  have hkeys : ((l.filter P).map Prod.fst).Sublist (l.map Prod.fst) :=
    hsub.map Prod.fst
  have hnd : ((l.filter P).map Prod.fst).Nodup := List.Nodup.sublist hkeys hnodup
  have hle : (l.filter P).length ≤ 1 := by
    by_contra hgt
    push_neg at hgt
    have h2 : e.1 ∈ (l.filter P).map Prod.fst := by
      rw [hrep]
      simp only [List.map_replicate]
      exact List.mem_replicate.2 ⟨by omega, rfl⟩
    rw [hrep] at hnd
    simp only [List.map_replicate] at hnd
    rw [List.nodup_replicate] at hnd
    omega
  have hge : 1 ≤ (l.filter P).length := by
    have : e ∈ l.filter P := List.mem_filter.2 ⟨hmem, hP⟩
    exact List.length_pos.2 (fun hnil => by simp [hnil] at this)
  omega

/-! ## Claim theorems -/

/-- C7 (counterexample): the map is keyed by host port, so a user mapping
whose host port equals an image-exposed port number evicts that image
entry even though its guest port was never overridden.  Image exposes TCP
80 and 8080; the user maps host 8080 to guest 80.  The final map is the
single entry `(8080, 80)`: guest port 8080 — image-exposed and not named
by any user mapping — has no entry at all, contradicting the claim that
non-overridden image-exposed ports remain in the map. -/
theorem c7_counterexample :
    build_network_config [80, 8080] [⟨some 8080, 80⟩] = [(8080, 80)] ∧
    ∀ e ∈ build_network_config [80, 8080] [⟨some 8080, 80⟩], e.2 ≠ 8080 := by
  decide

/-- C7 (amended): for user mappings with pairwise-distinct host keys and
pairwise-distinct guest ports, the port map built at spawn contains, for
every guest port that is both image-exposed and named in a user mapping,
exactly one entry for that guest port, with the user's host port; and an
image-exposed port the user did not override keeps its 1:1 entry provided
its number is not the host key of some user mapping (otherwise the user
entry replaces it, the map being keyed by host port). -/
theorem c7_port_map_amended (tcp : List Nat) (ports : List PortSpec)
    (hhost : (ports.map PortSpec.hostOf).Nodup)
    (hguest : (ports.map (fun q => q.guest_port)).Nodup) :
    (∀ sp ∈ ports, sp.guest_port ∈ tcp →
      ((build_network_config tcp ports).filter
        (fun e => e.2 == sp.guest_port)).length = 1 ∧
      (sp.hostOf, sp.guest_port) ∈ build_network_config tcp ports) ∧
    (∀ p ∈ tcp, p ∉ ports.map (fun q => q.guest_port) →
      p ∉ ports.map PortSpec.hostOf →
      (p, p) ∈ build_network_config tcp ports) := by
  have hnd := nodupKeys_build_network_config tcp ports
  constructor
  · intro sp hsp hspt
    have hlv : lastVal ports sp.hostOf = some sp.guest_port :=
      lastVal_self ports sp hhost hsp
    have hfind : findKey (build_network_config tcp ports) sp.hostOf =
        some sp.guest_port := by
      rw [findKey_build_network_config, hlv]
    have hmem : (sp.hostOf, sp.guest_port) ∈ build_network_config tcp ports :=
      (mem_iff_findKey hnd _ _).2 hfind
    refine ⟨?_, hmem⟩
    refine filter_length_one hnd ?_ hmem (by simp)
    intro x hx
    obtain ⟨a, b⟩ := x
    obtain ⟨hxm, hxP⟩ := List.mem_filter.1 hx
    have hb : b = sp.guest_port := by simpa using hxP
    have hxf : findKey (build_network_config tcp ports) a = some b :=
      (mem_iff_findKey hnd _ _).1 hxm
    rw [findKey_build_network_config] at hxf
    cases hlv2 : lastVal ports a with
    | some g =>
      rw [hlv2] at hxf
      have hg : g = b := by
        cases hxf
        rfl
      obtain ⟨sp2, hm2, hh2, hg2⟩ := lastVal_mem ports a g hlv2
      have hsp2 : sp2 = sp :=
        List.inj_on_of_nodup_map hguest hm2 hsp (by rw [hg2, hg, hb])
      have ha : a = sp.hostOf := by
        rw [← hh2, hsp2]
      rw [ha, hb]
    | none =>
      rw [hlv2] at hxf
      by_cases hcond : a ∈ tcp ∧ a ∉ ports.map (fun q => q.guest_port)
      · rw [if_pos hcond] at hxf
        have ha : a = b := by
          cases hxf
          rfl
        exfalso
        apply hcond.2
        rw [ha, hb]
        exact List.mem_map.2 ⟨sp, hsp, rfl⟩
      · rw [if_neg hcond] at hxf
        simp at hxf
  · intro p hp hnug hnhost
    have hlv : lastVal ports p = none := lastVal_of_not_mem ports p hnhost
    have hfind : findKey (build_network_config tcp ports) p = some p := by
      rw [findKey_build_network_config, hlv]
      exact if_pos ⟨hp, hnug⟩
    exact (mem_iff_findKey hnd _ _).2 hfind

/-- C7 (witness): the literal S5 scenario — image exposes TCP 80, the user
maps host 8080 to guest 80; exactly one entry for guest 80, host 8080. -/
theorem c7_witness :
    ((build_network_config [80] [⟨some 8080, 80⟩]).filter
      (fun e => e.2 == 80)).length = 1 ∧
    (8080, 80) ∈ build_network_config [80] [⟨some 8080, 80⟩] := by
  have h := (c7_port_map_amended [80] [⟨some 8080, 80⟩]
    (by decide) (by decide)).1 ⟨some 8080, 80⟩ (by decide) (by decide)
  exact h

/-- C8: in the fresh (`Starting`) execution plan the executor runs the
stages strictly in order — `filesystem_setup` runs first and completes
before either rootfs task runs, both rootfs tasks complete (successfully)
before `vmm_spawn` runs, `vmm_spawn` before `guest_connect`,
`guest_connect` before `guest_init` — the first task error prevents every
task of every later stage from running, and in a sequential stage a
failing task prevents the later tasks of that same stage from running. -/
theorem c8_pipeline_ordering :
    (∀ a b c d e f : Bool,
      (((execute (get_execution_plan .starting ⟨a, b, c, d, e, f⟩)).1.head? =
          some "filesystem_setup") ∧
        (("container_rootfs_prep" ∈
            (execute (get_execution_plan .starting ⟨a, b, c, d, e, f⟩)).1 ∨
          "guest_rootfs_init" ∈
            (execute (get_execution_plan .starting ⟨a, b, c, d, e, f⟩)).1) →
          a = true) ∧
        ("vmm_spawn" ∈ (execute (get_execution_plan .starting ⟨a, b, c, d, e, f⟩)).1 →
          (a && b && c) = true) ∧
        ("guest_connect" ∈ (execute (get_execution_plan .starting ⟨a, b, c, d, e, f⟩)).1 →
          (a && b && c && d) = true) ∧
        ("guest_init" ∈ (execute (get_execution_plan .starting ⟨a, b, c, d, e, f⟩)).1 →
          (a && b && c && d && e) = true) ∧
        ("vmm_spawn" ∈ (execute (get_execution_plan .starting ⟨a, b, c, d, e, f⟩)).1 →
          (execute (get_execution_plan .starting ⟨a, b, c, d, e, f⟩)).1.indexOf
              "container_rootfs_prep" <
            (execute (get_execution_plan .starting ⟨a, b, c, d, e, f⟩)).1.indexOf
              "vmm_spawn" ∧
          (execute (get_execution_plan .starting ⟨a, b, c, d, e, f⟩)).1.indexOf
              "guest_rootfs_init" <
            (execute (get_execution_plan .starting ⟨a, b, c, d, e, f⟩)).1.indexOf
              "vmm_spawn") ∧
        ("guest_connect" ∈ (execute (get_execution_plan .starting ⟨a, b, c, d, e, f⟩)).1 →
          (execute (get_execution_plan .starting ⟨a, b, c, d, e, f⟩)).1.indexOf
              "vmm_spawn" <
            (execute (get_execution_plan .starting ⟨a, b, c, d, e, f⟩)).1.indexOf
              "guest_connect") ∧
        ("guest_init" ∈ (execute (get_execution_plan .starting ⟨a, b, c, d, e, f⟩)).1 →
          (execute (get_execution_plan .starting ⟨a, b, c, d, e, f⟩)).1.indexOf
              "guest_connect" <
            (execute (get_execution_plan .starting ⟨a, b, c, d, e, f⟩)).1.indexOf
              "guest_init"))) ∧
    (∀ (t : MTask) (ts : List MTask), t.ok = false →
      runStageSeq (t :: ts) = ([t.name], false)) := by
  constructor
  · decide
  · intro t ts h
    simp [runStageSeq, h]

/-- C8 (witness): a failing first task of a sequential stage stops the
stage — the second task never runs. -/
theorem c8_witness :
    runStageSeq [⟨"alpha", false⟩, ⟨"beta", true⟩] = (["alpha"], false) :=
  c8_pipeline_ordering.2 ⟨"alpha", false⟩ [⟨"beta", true⟩] rfl

/-- C10: after a successful spawn, `VmmSpawnTask::run` discards the
results of persisting the PID and the `Running` status (`let _ = …`): with
the database failing both writes, the task still returns success, the
handler is set, and the registry — store and cache — is exactly what it
was before the spawn (pre-spawn status, no recorded PID). -/
theorem c10_spawn_persist_discarded (m : BoxManager) (id : BoxID) (pid : Nat) :
    vmm_spawn_task_run true m id pid true = (.ok ⟨⟩, m, true) ∧
    ∀ dbFail : Bool, (vmm_spawn_task_run true m id pid dbFail).1 = .ok ⟨⟩ := by
  constructor
  · by_cases hc : (findKey m.cache id).isNone
    · simp [vmm_spawn_task_run, vmm_spawn_persist, BoxManager.update_pid,
        BoxManager.update_status, hc]
    · simp [vmm_spawn_task_run, vmm_spawn_persist, BoxManager.update_pid,
        BoxManager.update_status, Store.update_pid, Store.update_status, hc]
  · intro dbFail
    simp [vmm_spawn_task_run]

/-- C6: every registry mutation method (`register`, `update_status`,
`update_pid`, `update_container_id`, `mark_crashed`, `remove`) persists to
the store before touching the cache; consequently, when the database write
fails the method returns an error and leaves the manager — cache and
store — exactly unchanged. -/
theorem c6_database_first (m : BoxManager) (id : BoxID) (st : BoxState)
    (s : BoxStatus) (p : Option Nat) (cid : String) :
    ((m.register id st true).2 = m ∧
      ∃ e, (m.register id st true).1 = .error e) ∧
    ((m.update_status id s true).2 = m ∧
      ∃ e, (m.update_status id s true).1 = .error e) ∧
    ((m.update_pid id p true).2 = m ∧
      ∃ e, (m.update_pid id p true).1 = .error e) ∧
    ((m.update_container_id id cid true).2 = m ∧
      ∃ e, (m.update_container_id id cid true).1 = .error e) ∧
    ((m.mark_crashed id true).2 = m ∧
      ∃ e, (m.mark_crashed id true).1 = .error e) ∧
    ((m.remove id true).2 = m ∧
      ∃ e, (m.remove id true).1 = .error e) := by
  refine ⟨?_, ?_, ?_, ?_, ?_, ?_⟩
  · by_cases hc : (findKey m.cache id).isSome
    · simp [BoxManager.register, hc]
    · simp [BoxManager.register, hc, Store.save]
  · by_cases hc : (findKey m.cache id).isNone
    · simp [BoxManager.update_status, hc]
    · simp [BoxManager.update_status, hc, Store.update_status]
  · by_cases hc : (findKey m.cache id).isNone
    · simp [BoxManager.update_pid, hc]
    · simp [BoxManager.update_pid, hc, Store.update_pid]
  · by_cases hc : (findKey m.cache id).isNone
    · simp [BoxManager.update_container_id, hc]
    · simp [BoxManager.update_container_id, hc, Store.update_container_id]
  · simp [BoxManager.mark_crashed, Store.mark_crashed]
  · cases hfind : findKey m.cache id with
    | none => simp [BoxManager.remove, hfind]
    | some entry =>
      by_cases hact : entry.status.is_active = true
      · simp [BoxManager.remove, hfind, hact]
      · simp [BoxManager.remove, hfind, hact, Store.delete]

/-- `stop` stores `true` into `is_shutdown` before any validation, so the
handle it returns carries the flag on every path, error or success. -/
theorem stop_sets_shutdown (h : Handle) (m : BoxManager) (env : HostEnv) :
    (stop h m env).2.1.is_shutdown = true := by
  unfold stop
  simp only []
  repeat' split <;> try rfl

/-- C9: once `stop` has been called on a handle — whatever `stop`
returned, including the `InvalidState` of a non-stoppable box — dropping
the handle cannot panic, because the shutdown flag is stored before any
validation; conversely a drop panic requires a handle whose flag was never
set and whose registry record is still active. -/
theorem c9_drop_discipline (h : Handle) (m : BoxManager) (env : HostEnv) :
    (stop h m env).2.1.is_shutdown = true ∧
    (∀ m2 : BoxManager, drop_panics (stop h m env).2.1 m2 = false) ∧
    (∀ (h0 : Handle) (m0 : BoxManager), drop_panics h0 m0 = true →
      h0.is_shutdown = false ∧
      ∃ st, m0.get h0.id = some st ∧ st.status.is_active = true) := by
  refine ⟨stop_sets_shutdown h m env, ?_, ?_⟩
  · intro m2
    simp [drop_panics, stop_sets_shutdown h m env]
  · intro h0 m0 hp
    by_cases hs : h0.is_shutdown
    · simp [drop_panics, hs] at hp
    · refine ⟨by simpa using hs, ?_⟩
      cases hget : m0.get h0.id with
      | none => simp [drop_panics, hs, hget] at hp
      | some st =>
        simp only [drop_panics, hs, if_neg, hget] at hp
        exact ⟨st, rfl, by simpa using hp⟩

/-- C9 (witness): a concrete panicking drop — flag unset, record active —
yields the two facts through the theorem. -/
theorem c9_witness :
    (Handle.mk "b" false false false).is_shutdown = false ∧
    ∃ st, (BoxManager.mk [("b", ⟨.running, none, none⟩)] []).get "b" = some st ∧
      st.status.is_active = true :=
  (c9_drop_discipline (Handle.mk "b" false false false)
    (BoxManager.mk [("b", ⟨.running, none, none⟩)] [])
    (HostEnv.mk true false true true)).2.2
    (Handle.mk "b" false false false)
    (BoxManager.mk [("b", ⟨.running, none, none⟩)] []) rfl

/-- C2 (counterexample): on a box whose record shows `Stopped`, `stop`
does not return success: `can_stop` holds only for active boxes, so the
call fails with `InvalidState` (the registry is untouched and only the
handle's shutdown flag is set). -/
theorem c2_counterexample :
    stop (Handle.mk "b" false false false)
      (BoxManager.mk [("b", ⟨.stopped, none, none⟩)] [("b", ⟨.stopped, none, none⟩)])
      (HostEnv.mk true false true true) =
    (.error .invalidState, Handle.mk "b" true false false,
      BoxManager.mk [("b", ⟨.stopped, none, none⟩)] [("b", ⟨.stopped, none, none⟩)]) := by
  rfl

/-- C2 (amended): calling `stop` on a handle whose store record shows
`Stopped` fails with `InvalidState` and changes nothing — the registry
(status and PID) is untouched; the only mutation is the handle's own
shutdown flag, set before validation. -/
theorem c2_stop_amended (h : Handle) (m : BoxManager) (env : HostEnv)
    (st : BoxState) (hget : m.get h.id = some st) (hst : st.status = .stopped) :
    stop h m env = (.error .invalidState, { h with is_shutdown := true }, m) := by
  have hcan : st.status.can_stop = false := by
    rw [hst]
    rfl
  unfold stop
  simp only [hget, hcan]
  rfl

/-- C2 (witness): the amended statement at a concrete stopped box. -/
theorem c2_witness :
    stop (Handle.mk "w" false true false)
      (BoxManager.mk [("w", ⟨.stopped, some 3, none⟩)] [])
      (HostEnv.mk false true true true) =
    (.error .invalidState, Handle.mk "w" true true false,
      BoxManager.mk [("w", ⟨.stopped, some 3, none⟩)] []) :=
  c2_stop_amended (Handle.mk "w" false true false)
    (BoxManager.mk [("w", ⟨.stopped, some 3, none⟩)] [])
    (HostEnv.mk false true true true) ⟨.stopped, some 3, none⟩ rfl rfl

/-- C1 (counterexample): the reattach path verifies only that the recorded
PID is alive; process identity is never checked.  In an environment where
PID 5 is alive but is not this box's VMM process
(`is_same_process 5 "b1" = false`), `ensure_ready` on the `Running` record
still constructs a live value via reattach — contradicting the claim that
a live value is constructed only if both checks pass. -/
theorem c1_counterexample :
    (ensure_ready (ProcEnv.mk (fun _ => true) (fun _ _ => false))
      (BoxManager.mk [("b1", ⟨.running, some 5, some "c"⟩)]
        [("b1", ⟨.running, some 5, some "c"⟩)])
      "b1" (.error .internal)).1 = .ok ⟨5, "c"⟩ ∧
    (ProcEnv.mk (fun _ => true) (fun _ _ => false)).same 5 "b1" = false := by
  constructor <;> rfl

/-- C1 (amended): for a box whose stored status is `Running` with a
recorded PID and container id, `ensure_ready` verifies only that the PID
is alive: if the process is dead the box is marked via the registry's
`mark_crashed` and the operation fails with `InvalidState`; if it is alive
— regardless of process identity — a live value is constructed via the
reattach path. -/
theorem c1_reattach_amended (env : ProcEnv) (m : BoxManager) (id : BoxID)
    (pid : Nat) (cid : String) (builderResult : Except Err Live) (st : BoxState)
    (hget : m.get id = some st) (hst : st.status = .running)
    (hpid : st.pid = some pid) (hcid : st.container_id = some cid) :
    (env.alive pid = true →
      ensure_ready env m id builderResult = (.ok ⟨pid, cid⟩, m)) ∧
    (env.alive pid = false →
      ensure_ready env m id builderResult =
        (.error .invalidState, (m.mark_crashed id false).2)) := by
  obtain ⟨sts, stp, stc⟩ := st
  simp only at hst hpid hcid
  subst hst hpid hcid
  unfold ensure_ready
  simp only [hget]
  constructor
  · intro ha
    simp [reattach_to_running, ha]
  · intro ha
    simp [reattach_to_running, ha]

/-- C1 (witness): the amended statement at a concrete alive PID. -/
theorem c1_witness :
    ensure_ready (ProcEnv.mk (fun _ => true) (fun _ _ => true))
      (BoxManager.mk [("w1", ⟨.running, some 7, some "cc"⟩)]
        [("w1", ⟨.running, some 7, some "cc"⟩)])
      "w1" (.error .internal) =
    (.ok ⟨7, "cc"⟩,
      BoxManager.mk [("w1", ⟨.running, some 7, some "cc"⟩)]
        [("w1", ⟨.running, some 7, some "cc"⟩)]) :=
  (c1_reattach_amended (ProcEnv.mk (fun _ => true) (fun _ _ => true))
    (BoxManager.mk [("w1", ⟨.running, some 7, some "cc"⟩)]
      [("w1", ⟨.running, some 7, some "cc"⟩)])
    "w1" 7 "cc" (.error .internal) ⟨.running, some 7, some "cc"⟩
    rfl rfl rfl rfl).1 rfl

/-- C3: startup recovery never writes the reconciled state back to the
store.  Recovering the single row `(b1, Running, pid 99999)` in an
environment where PID 99999 is dead yields a cache entry reconciled to
`Stopped` with the PID cleared, while the store row — listed unchanged in
the resulting manager — still says `Running` with PID 99999
(`register_recovered` populates the cache only).  The claim (and spec
invariant 1 / scenario S4) requires the row to be `Stopped` with the PID
cleared and the cache to equal the store; the code leaves them different. -/
theorem c3_recovery_store_unchanged :
    recover_boxes (ProcEnv.mk (fun _ => false) (fun _ _ => false)) false
      [("b1", ⟨.running, some 99999, none⟩)] =
    .ok (BoxManager.mk [("b1", ⟨.stopped, none, none⟩)]
      [("b1", ⟨.running, some 99999, none⟩)]) := by
  rfl

/-- C5: `remove_box` on an active box fails `InvalidState` when
`force = false`, leaving the registry (status and PID) untouched; with
`force = true` it SIGKILLs the recorded PID, transitions the box to
`Stopped` with the PID cleared, deletes the store row (and cache entry)
before deleting the box subtree, and returns success whether or not the
subtree deletion succeeds (the failure is only logged). -/
theorem c5_remove_box (m : BoxManager) (id : BoxID) (env : HostEnv)
    (st : BoxState) (p : Nat) (row : BoxState)
    (hget : m.get id = some st) (hactive : st.status.is_active = true) :
    (remove_box m id false env = (.error .invalidState, m, [])) ∧
    (st.pid = some p → findKey m.store id = some row →
      nodupKeys m.cache → nodupKeys m.store → env.dbFail = false →
      ∃ m3, remove_box m id true env =
        (.ok ⟨⟩, m3,
          [Action.sigkill p, Action.storeDelete] ++
            (if env.subtreeExists then [Action.subtreeDelete] else [])) ∧
        findKey m3.cache id = none ∧ findKey m3.store id = none) := by
  constructor
  · unfold remove_box
    simp [hget, hactive]
  · intro hpid hs hnc hns hdb
    have hc : findKey m.cache id = some st := hget
    have h1 := update_status_ok m id .stopped hc hs
    have hc1 : findKey (updateKey (fun r => r.set_status .stopped) m.cache id) id =
        some (st.set_status .stopped) := by
      rw [findKey_updateKey_self, hc]
      rfl
    have hs1 : findKey (updateKey (fun r => r.set_status .stopped) m.store id) id =
        some (row.set_status .stopped) := by
      rw [findKey_updateKey_self, hs]
      rfl
    have h2 := update_pid_ok
      ⟨updateKey (fun r => r.set_status .stopped) m.cache id,
        updateKey (fun r => r.set_status .stopped) m.store id⟩ id none hc1 hs1
    have hc2 : findKey (updateKey (fun r => r.set_pid none)
        (updateKey (fun r => r.set_status .stopped) m.cache id) id) id =
        some ((st.set_status .stopped).set_pid none) := by
      rw [findKey_updateKey_self, hc1]
      rfl
    have hs2 : findKey (updateKey (fun r => r.set_pid none)
        (updateKey (fun r => r.set_status .stopped) m.store id) id) id =
        some ((row.set_status .stopped).set_pid none) := by
      rw [findKey_updateKey_self, hs1]
      rfl
    have h3 := remove_ok
      ⟨updateKey (fun r => r.set_pid none)
          (updateKey (fun r => r.set_status .stopped) m.cache id) id,
        updateKey (fun r => r.set_pid none)
          (updateKey (fun r => r.set_status .stopped) m.store id) id⟩ id hc2 rfl hs2
    refine ⟨⟨eraseKey (updateKey (fun r => r.set_pid none)
        (updateKey (fun r => r.set_status .stopped) m.cache id) id) id,
      eraseKey (updateKey (fun r => r.set_pid none)
        (updateKey (fun r => r.set_status .stopped) m.store id) id) id⟩, ?_, ?_, ?_⟩
    · unfold remove_box
      simp [hget, hactive, hpid, hdb, h1, h2, h3]
    · exact findKey_eraseKey_self (nodupKeys_updateKey (nodupKeys_updateKey hnc))
    · exact findKey_eraseKey_self (nodupKeys_updateKey (nodupKeys_updateKey hns))

/-- C5 (witness): force-removing a running box with PID 9 whose subtree
deletion fails still succeeds; the row is gone, the kill and the
store-before-subtree order are visible in the trace. -/
theorem c5_witness :
    ∃ m3, remove_box
        (BoxManager.mk [("r", ⟨.running, some 9, none⟩)] [("r", ⟨.running, some 9, none⟩)])
        "r" true (HostEnv.mk true false true false) =
      (.ok ⟨⟩, m3, [Action.sigkill 9, Action.storeDelete, Action.subtreeDelete]) ∧
      findKey m3.cache "r" = none ∧ findKey m3.store "r" = none :=
  (c5_remove_box
    (BoxManager.mk [("r", ⟨.running, some 9, none⟩)] [("r", ⟨.running, some 9, none⟩)])
    "r" (HostEnv.mk true false true false) ⟨.running, some 9, none⟩ 9
    ⟨.running, some 9, none⟩ rfl rfl).2 rfl rfl (by simp [nodupKeys]) (by simp [nodupKeys]) rfl

/-- The `vmm_spawn` persistence updates written out, when the box is
present in cache and store. -/
theorem vmm_spawn_persist_eq (m : BoxManager) (id : BoxID) (pid : Nat)
    {st row : BoxState} (hc : findKey m.cache id = some st)
    (hs : findKey m.store id = some row) :
    vmm_spawn_persist m id pid false =
      ⟨updateKey (fun r => r.set_status .running)
          (updateKey (fun r => r.set_pid (some pid)) m.cache id) id,
        updateKey (fun r => r.set_status .running)
          (updateKey (fun r => r.set_pid (some pid)) m.store id) id⟩ := by
  have hc1 : findKey (updateKey (fun r => r.set_pid (some pid)) m.cache id) id =
      some (st.set_pid (some pid)) := by
    rw [findKey_updateKey_self, hc]
    rfl
  have hs1 : findKey (updateKey (fun r => r.set_pid (some pid)) m.store id) id =
      some (row.set_pid (some pid)) := by
    rw [findKey_updateKey_self, hs]
    rfl
  unfold vmm_spawn_persist
  rw [update_pid_ok m id (some pid) hc hs]
  dsimp only
  rw [update_status_ok
    ⟨updateKey (fun r => r.set_pid (some pid)) m.cache id,
      updateKey (fun r => r.set_pid (some pid)) m.store id⟩ id .running hc1 hs1]

/-- `BoxBuilder::build` from `Starting` with a failing pipeline: the guard
drops armed and performs the full cleanup. -/
theorem build_starting_fail (o : InitOutcomes) (m : BoxManager) (id : BoxID)
    (pid : Nat) (cid : String)
    (hfail : (o.fsOk && o.crOk && o.grOk && o.spawnOk && o.connectOk && o.initOk) = false) :
    build .starting o m id pid cid =
      ⟨false,
        ((((if o.fsOk && o.crOk && o.grOk && o.spawnOk then
              vmm_spawn_persist m id pid false
            else m).mark_crashed id false).2).remove id false).2,
        1, o.fsOk && o.crOk && o.grOk && o.spawnOk, o.fsOk⟩ := by
  obtain ⟨a, b, c, d, e, f⟩ := o
  cases a <;> cases b <;> cases c <;> cases d <;> cases e <;> cases f <;>
    simp_all [build, run_init_pipeline, vmm_spawn_persist, CleanupGuard.dropRun,
      CleanupGuard.new]

/-- `BoxBuilder::build` from `Stopped` with a failing pipeline: the guard
was disarmed up front, so its drop performs no cleanup at all. -/
theorem build_stopped_fail (o : InitOutcomes) (m : BoxManager) (id : BoxID)
    (pid : Nat) (cid : String)
    (hfail : (o.fsOk && o.crOk && o.grOk && o.spawnOk && o.connectOk && o.initOk) = false) :
    build .stopped o m id pid cid =
      ⟨false,
        (if o.fsOk && o.crOk && o.grOk && o.spawnOk then
          vmm_spawn_persist m id pid false
        else m),
        0, false, false⟩ := by
  obtain ⟨a, b, c, d, e, f⟩ := o
  cases a <;> cases b <;> cases c <;> cases d <;> cases e <;> cases f <;>
    simp_all [build, run_init_pipeline, vmm_spawn_persist, CleanupGuard.dropRun,
      CleanupGuard.new]

/-- C4 (counterexample): a restart init (`Stopped`) whose `guest_connect`
task fails performs no cleanup at all — the guard was disarmed up front:
the store row for the box is still present (even flipped to `Running` with
the fresh PID by the discarded spawn updates), `boxes_failed` is not
incremented, and neither the spawned VMM handler is stopped nor the layout
cleaned — contradicting the claim for restarts from `Stopped`. -/
theorem c4_counterexample :
    build .stopped ⟨true, true, true, true, false, true⟩
      (BoxManager.mk [("s", ⟨.stopped, none, none⟩)] [("s", ⟨.stopped, none, none⟩)])
      "s" 7 "cid" =
    ⟨false,
      BoxManager.mk [("s", ⟨.running, some 7, none⟩)] [("s", ⟨.running, some 7, none⟩)],
      0, false, false⟩ := by
  rfl

/-- C4 (amended): when any task of a fresh (`Starting`) init fails, the
cleanup guard stops the VMM handler if one was spawned, cleans the layout
if it was created, marks the box crashed and removes it from the store and
cache (no row remains), and increments `boxes_failed` by one.  On a
restart from `Stopped` the guard is disarmed before the pipeline runs, so
a task failure performs none of that cleanup: `boxes_failed` is unchanged,
nothing is stopped or cleaned, and the box's store row remains. -/
theorem c4_cleanup_amended (o : InitOutcomes) (m : BoxManager) (id : BoxID)
    (pid : Nat) (cid : String) (st row : BoxState)
    (hc : findKey m.cache id = some st) (hs : findKey m.store id = some row)
    (hnc : nodupKeys m.cache) (hns : nodupKeys m.store)
    (hfail : (o.fsOk && o.crOk && o.grOk && o.spawnOk && o.connectOk && o.initOk) = false) :
    ((build .starting o m id pid cid).ok = false ∧
      findKey (build .starting o m id pid cid).mgr.cache id = none ∧
      findKey (build .starting o m id pid cid).mgr.store id = none ∧
      (build .starting o m id pid cid).boxesFailedDelta = 1 ∧
      (build .starting o m id pid cid).handlerStopped =
        (o.fsOk && o.crOk && o.grOk && o.spawnOk) ∧
      (build .starting o m id pid cid).layoutCleaned = o.fsOk) ∧
    ((build .stopped o m id pid cid).ok = false ∧
      (build .stopped o m id pid cid).boxesFailedDelta = 0 ∧
      (build .stopped o m id pid cid).handlerStopped = false ∧
      (build .stopped o m id pid cid).layoutCleaned = false ∧
      (findKey (build .stopped o m id pid cid).mgr.store id).isSome = true) := by
  rw [build_starting_fail o m id pid cid hfail, build_stopped_fail o m id pid cid hfail]
  by_cases hP : (o.fsOk && o.crOk && o.grOk && o.spawnOk) = true
  · rw [if_pos hP, vmm_spawn_persist_eq m id pid hc hs]
    have hc2 : findKey (updateKey (fun r => r.set_status .running)
        (updateKey (fun r => r.set_pid (some pid)) m.cache id) id) id =
        some ((st.set_pid (some pid)).set_status .running) := by
      rw [findKey_updateKey_self, findKey_updateKey_self, hc]
      rfl
    have hs2 : findKey (updateKey (fun r => r.set_status .running)
        (updateKey (fun r => r.set_pid (some pid)) m.store id) id) id =
        some ((row.set_pid (some pid)).set_status .running) := by
      rw [findKey_updateKey_self, findKey_updateKey_self, hs]
      rfl
    obtain ⟨hgone1, hgone2⟩ := mark_crashed_then_remove
      ⟨updateKey (fun r => r.set_status .running)
          (updateKey (fun r => r.set_pid (some pid)) m.cache id) id,
        updateKey (fun r => r.set_status .running)
          (updateKey (fun r => r.set_pid (some pid)) m.store id) id⟩ id hc2 hs2
      (nodupKeys_updateKey (nodupKeys_updateKey hnc))
      (nodupKeys_updateKey (nodupKeys_updateKey hns))
    exact ⟨⟨rfl, hgone1, hgone2, rfl, rfl, rfl⟩, ⟨rfl, rfl, rfl, rfl, by rw [hs2]; rfl⟩⟩
  · have hPf : (o.fsOk && o.crOk && o.grOk && o.spawnOk) = false := by
      simpa using hP
    rw [if_neg (by rw [hPf]; exact Bool.false_ne_true)]
    obtain ⟨hgone1, hgone2⟩ := mark_crashed_then_remove m id hc hs hnc hns
    exact ⟨⟨rfl, hgone1, hgone2, rfl, rfl, rfl⟩, ⟨rfl, rfl, rfl, rfl, by rw [hs]; rfl⟩⟩

/-- C4 (witness): a fresh init failing at `guest_connect` leaves no store
row and bumps the failure counter by one. -/
theorem c4_witness :
    findKey (build .starting ⟨true, true, true, true, false, true⟩
      (BoxManager.mk [("k", ⟨.starting, none, none⟩)] [("k", ⟨.starting, none, none⟩)])
      "k" 7 "cid").mgr.store "k" = none ∧
    (build .starting ⟨true, true, true, true, false, true⟩
      (BoxManager.mk [("k", ⟨.starting, none, none⟩)] [("k", ⟨.starting, none, none⟩)])
      "k" 7 "cid").boxesFailedDelta = 1 := by
  have h := c4_cleanup_amended ⟨true, true, true, true, false, true⟩
    (BoxManager.mk [("k", ⟨.starting, none, none⟩)] [("k", ⟨.starting, none, none⟩)])
    "k" 7 "cid" ⟨.starting, none, none⟩ ⟨.starting, none, none⟩
    rfl rfl (by simp [nodupKeys]) (by simp [nodupKeys]) rfl
  exact ⟨h.1.2.2.1, h.1.2.2.2.1⟩

end Boxlite
